import Mathlib

/-!
Verification of the MSDS_Scout SDS-download scripts.

The Python sources under `scripts/` are shallowly embedded: Python strings
become lists of Unicode code points (`PyStr`), pure helpers become Lean
functions, and each per-(product, language) download loop becomes a
structurally recursive function over the requested language list, with the
network modelled as an oracle from language code to fetch result.  File
writes are recorded in the produced outcome values rather than performed.
-/

/-- Python strings, modelled as lists of Unicode code points. -/
abbrev PyStr := List Nat

/-- The code points of a Lean string literal, used to write concrete
Python string values. -/
def S (s : String) : PyStr := s.data.map Char.toNat

/-- The whitespace code points removed by Python `str.strip()`
(space, tab, newline, carriage return, vertical tab, form feed). -/
def pyIsSpace (c : Nat) : Bool :=
  decide (c = 32 ∨ c = 9 ∨ c = 10 ∨ c = 13 ∨ c = 11 ∨ c = 12)

/-- Python `str.strip()`: remove leading and trailing whitespace. -/
def pyStrip (s : PyStr) : PyStr :=
  ((s.dropWhile pyIsSpace).reverse.dropWhile pyIsSpace).reverse

/-- Python `str.lower()` on one code point (ASCII range, which covers the
language and country codes these scripts handle). -/
def pyLowerChar (c : Nat) : Nat := if 65 ≤ c ∧ c ≤ 90 then c + 32 else c

/-- Python `str.lower()`. -/
def pyLower (s : PyStr) : PyStr := s.map pyLowerChar

/-- Python `str.upper()` on one code point (ASCII range). -/
def pyUpperChar (c : Nat) : Nat := if 97 ≤ c ∧ c ≤ 122 then c - 32 else c

/-- Python `str.upper()`. -/
def pyUpper (s : PyStr) : PyStr := s.map pyUpperChar

/-- Python `needle in hay` substring membership on strings. -/
def pyIn (needle : PyStr) : PyStr → Bool
  | [] => needle.isPrefixOf []
  | c :: rest => needle.isPrefixOf (c :: rest) || pyIn needle rest

/-- `scripts/sds_common.py`, `DownloadRecord`: the record of one SDS
download outcome (`path`, `languages`, `source_url`, `metadata`). -/
structure DownloadRecord where
  path : PyStr
  languages : List PyStr
  source_url : PyStr
  metadata : List (PyStr × PyStr)
deriving DecidableEq

/-- `scripts/sds_common.py`, `normalize_languages`: an empty (or absent)
input yields `[]`; otherwise the non-blank entries are stripped, lowered,
collected into a set and returned sorted
(`sorted({lang.strip().lower() for lang in languages if lang.strip()})`). -/
def normalize_languages (languages : List PyStr) : List PyStr :=
  if languages.isEmpty then []
  else
    List.insertionSort (· ≤ ·)
      (((languages.filter (fun l => !(pyStrip l).isEmpty)).map
        (fun l => pyLower (pyStrip l))).dedup)

/-! Embedding of `scripts/tci_get.py`. -/

/-- `scripts/tci_get.py`, `SDSMetadata`: product facts recovered from a TCI
product page. -/
structure SDSMetadata where
  product_code : PyStr
  selected_country : PyStr
  languages : List (PyStr × PyStr)
  context_path : PyStr
deriving DecidableEq

/-- Code point class `[^;=\n]` from the disposition regex in
`download_sds_documents`. -/
def dispTokenChar (c : Nat) : Bool := decide (c ≠ 59 ∧ c ≠ 61 ∧ c ≠ 10)

/-- Code point class `[^;\n]` from the disposition regex. -/
def dispValueChar (c : Nat) : Bool := decide (c ≠ 59 ∧ c ≠ 10)

/-- A double or single quote, the class `["']` of the disposition regex. -/
def isQuoteChar (c : Nat) : Bool := decide (c = 34 ∨ c = 39)

/-- The lazy body of the quoted alternative `(["']).*?\2`: the shortest run
of non-newline code points up to a closing quote `q`, or `none` when no
closing quote occurs before a newline or the end of the header. -/
def scanQuoted (q : Nat) : PyStr → Option PyStr
  | [] => none
  | c :: rest =>
      if c = q then some []
      else if c = 10 then none
      else (scanQuoted q rest).map (c :: ·)

/-- Group 1 of the pattern `filename[^;=\n]*=((["\']).*?\2|[^;\n]*)`,
matched directly after an occurrence of the literal `filename`: skip the
`[^;=\n]*` run, require `=`, then prefer the quoted alternative and fall
back to the greedy unquoted run. -/
def dispGroup1After (s : PyStr) : Option PyStr :=
  match s.dropWhile dispTokenChar with
  | [] => none
  | c :: rest =>
      if c = 61 then
        match rest with
        | q :: rest2 =>
            if isQuoteChar q then
              match scanQuoted q rest2 with
              | some inner => some (q :: (inner ++ [q]))
              | none => some (rest.takeWhile dispValueChar)
            else some (rest.takeWhile dispValueChar)
        | [] => some []
      else none

/-- `re.search` of the disposition pattern: try each start position from
the left; at each occurrence of the literal `filename` the remainder must
produce a group-1 value, otherwise scanning continues. -/
def dispSearch : PyStr → Option PyStr
  | [] => none
  | c :: rest =>
      if (S "filename").isPrefixOf (c :: rest) then
        match dispGroup1After ((c :: rest).drop 8) with
        | some g => some g
        | none => dispSearch rest
      else dispSearch rest

/-- Python `value.strip("\"'")`: remove leading and trailing quote
characters, as applied to the matched group. -/
def stripQuotes (s : PyStr) : PyStr :=
  ((s.dropWhile isQuoteChar).reverse.dropWhile isQuoteChar).reverse

/-- Output filename selection in `download_sds_documents`
(`scripts/tci_get.py` lines 211-218): parse the disposition header when it
is non-empty; when no filename results (header empty, pattern unmatched, or
a quoted empty value), fall back to `f"{metadata.product_code}_{lang}.pdf"`. -/
def tci_filename (disposition : PyStr) (product_code lang : PyStr) : PyStr :=
  let parsed : Option PyStr :=
    if disposition.isEmpty then none
    else (dispSearch disposition).map stripQuotes
  let fallback := product_code ++ S "_" ++ lang ++ S ".pdf"
  match parsed with
  | some f => if f.isEmpty then fallback else f
  | none => fallback

/-- A response of the TCI SDS POST endpoint, as read by
`download_sds_documents`: status code, `Content-Type` and
`Content-Disposition` headers (defaulted to the empty string) and the body
bytes. -/
structure TciResponse where
  status_code : Nat
  content_type : PyStr
  disposition : PyStr
  content : List Nat
deriving DecidableEq

/-- One `session.post` call for a language: either a raised
`RequestsError` or a response. -/
inductive TciFetchResult where
  | error
  | ok (response : TciResponse)
deriving DecidableEq

/-- The per-language outcome of the `download_sds_documents` loop body. -/
inductive TciLangOutcome where
  | skippedBlank
  | skippedUnavailable
  | transportError
  | httpError (code : Nat)
  | contentTypeError
  | saved (filename : PyStr) (contentBytes : List Nat)
deriving DecidableEq

/-- The keys of `available_languages = {code: label for code, label in
metadata.languages if code}` in `download_sds_documents`. -/
def tci_available_codes (meta : SDSMetadata) : List PyStr :=
  (meta.languages.filter (fun cl => !cl.1.isEmpty)).map Prod.fst

/-- The body of the `for requested_lang in languages` loop of
`download_sds_documents` (`scripts/tci_get.py` lines 168-222): strip the
requested code and skip blanks; skip codes missing from a non-empty
availability map; otherwise POST and validate status 200 and a
`pdf`/`octet-stream` content type; on success the body bytes are written
under the derived filename. -/
def tci_process_language (meta : SDSMetadata) (fetch : PyStr → TciFetchResult)
    (requested : PyStr) : TciLangOutcome :=
  let lang := pyStrip requested
  if lang.isEmpty then .skippedBlank
  else if !(tci_available_codes meta).isEmpty
      && !((tci_available_codes meta).contains lang) then .skippedUnavailable
  else
    match fetch lang with
    | .error => .transportError
    | .ok r =>
        if r.status_code ≠ 200 then .httpError r.status_code
        else if !pyIn (S "pdf") (pyLower r.content_type)
            && !pyIn (S "octet-stream") (pyLower r.content_type) then
          .contentTypeError
        else .saved (tci_filename r.disposition meta.product_code lang) r.content

/-- The `DownloadRecord` appended by `download_sds_documents` after a
successful save (`scripts/tci_get.py` lines 224-234). -/
def tci_record_for (meta : SDSMetadata) (sds_url output_dir : PyStr)
    (lang filename : PyStr) : DownloadRecord :=
  { path := output_dir ++ S "/" ++ filename
    languages := normalize_languages [lang]
    source_url := sds_url
    metadata := [(S "productCode", meta.product_code),
                 (S "country", meta.selected_country)] }

/-- `scripts/tci_get.py`, `download_sds_documents`: fold the loop body over
the requested languages, pairing every requested code with its outcome and
collecting a `DownloadRecord` for each save.  The network is the `fetch`
oracle. -/
def tci_download_sds_documents (meta : SDSMetadata) (sds_url output_dir : PyStr)
    (languages : List PyStr) (fetch : PyStr → TciFetchResult) :
    List (PyStr × TciLangOutcome) × List DownloadRecord :=
  match languages with
  | [] => ([], [])
  | requested :: rest =>
      let o := tci_process_language meta fetch requested
      let tail := tci_download_sds_documents meta sds_url output_dir rest fetch
      match o with
      | .saved filename _ =>
          ((requested, o) :: tail.1,
            tci_record_for meta sds_url output_dir (pyStrip requested) filename :: tail.2)
      | _ => ((requested, o) :: tail.1, tail.2)

/-- The files written by a `download_sds_documents` run: one
`(filename, bytes)` pair per saved outcome, written just before the record
is appended (`scripts/tci_get.py` lines 220-221). -/
def tci_written_files (outcomes : List (PyStr × TciLangOutcome)) :
    List (PyStr × List Nat) :=
  outcomes.filterMap (fun p =>
    match p.2 with
    | .saved filename contentBytes => some (filename, contentBytes)
    | _ => none)

/-- `scripts/tci_get.py`, `main`: the process exit status.  `SystemExit(1)`
is raised when a `--search-term` lookup fails or the product page fetch
fails; every other path falls through `print_summary` and exits 0,
whatever the download records are. -/
def tci_exit_code (search_failed page_fetch_failed : Bool)
    (records : List DownloadRecord) : Nat :=
  if search_failed then 1 else if page_fetch_failed then 1 else 0

/-- `scripts/tci_get.py`, `main` lines 323-325: the language list handed to
`download_sds_documents` is `normalize_languages(args.languages) or
[code for code, _ in metadata.languages if code]`. -/
def tci_requested_languages (cli_languages : List PyStr)
    (meta : SDSMetadata) : List PyStr :=
  let n := normalize_languages cli_languages
  if n.isEmpty then (meta.languages.filter (fun cl => !cl.1.isEmpty)).map Prod.fst
  else n

/-! Embedding of `scripts/aldrich_sds.py`. -/

/-- A response seen by `AldrichClient.download_sds`: status code,
`Content-Type` header and body bytes. -/
structure AldrichResponse where
  status_code : Nat
  content_type : PyStr
  content : List Nat
deriving DecidableEq

/-- One `session.get` of an SDS URL: either a raised `RequestsError` or a
response. -/
inductive AldrichFetchResult where
  | error
  | ok (response : AldrichResponse)
deriving DecidableEq

/-- The deterministic output filename of the direct-URL adapter,
`f"{product_number}_{country}_{language.upper()}.pdf"`
(`scripts/aldrich_sds.py` line 228, identically `scripts/aldrich_mcp.py`
line 152 and `scripts/aldrich_simple.py` line 72). -/
def aldrich_filename (product_number country language : PyStr) : PyStr :=
  product_number ++ S "_" ++ country ++ S "_" ++ pyUpper language ++ S ".pdf"

/-- `scripts/aldrich_sds.py`, `AldrichClient.download_sds` (lines 86-129):
transport errors, non-200 statuses and content types without a `pdf`
marker give no record and no write; otherwise the body bytes are written
to `output_path` and a record is returned.  The result pairs the written
bytes with the created record. -/
def aldrich_download_sds (fetchResult : AldrichFetchResult)
    (sds_url output_path product_url language : PyStr) :
    Option (List Nat × DownloadRecord) :=
  match fetchResult with
  | .error => none
  | .ok r =>
      if r.status_code ≠ 200 then none
      else if !pyIn (S "pdf") (pyLower r.content_type) then none
      else some (r.content,
        { path := output_path
          languages := [pyLower language]
          source_url := sds_url
          metadata := [(S "referer", product_url)] })

/-- `scripts/aldrich_sds.py`, `main` line 208: the languages attempted, in
loop order: `normalize_languages(args.languages) or [default_language]`. -/
def aldrich_requested_languages (cli_languages : List PyStr)
    (default_language : PyStr) : List PyStr :=
  let n := normalize_languages cli_languages
  if n.isEmpty then [default_language] else n

/-- `scripts/aldrich_sds.py`, `main` lines 225-240: the download loop,
appending a record per successful validated fetch.  The first component
lists the language of every `download_sds` call, in loop order. -/
def aldrich_main_loop (country brand product_number product_url output_root : PyStr)
    (languages : List PyStr) (fetch : PyStr → AldrichFetchResult) :
    List PyStr × List DownloadRecord :=
  match languages with
  | [] => ([], [])
  | language :: rest =>
      let sds_url := S "https://www.sigmaaldrich.com/" ++ country ++ S "/"
        ++ language ++ S "/sds/" ++ brand ++ S "/" ++ product_number
      let output_path := output_root ++ S "/"
        ++ aldrich_filename product_number country language
      let tail := aldrich_main_loop country brand product_number product_url
        output_root rest fetch
      match aldrich_download_sds (fetch language) sds_url output_path
          product_url language with
      | some pr => (language :: tail.1, pr.2 :: tail.2)
      | none => (language :: tail.1, tail.2)

/-- `scripts/aldrich_sds.py`, `main`: exit status.  The early `sys.exit(1)`
sites (failed search, invalid URL, failed page prime) are summarized by
`early_failure`; otherwise the run ends in `sys.exit(0 if records else 1)`
(line 251). -/
def aldrich_exit_code (early_failure : Bool)
    (records : List DownloadRecord) : Nat :=
  if early_failure then 1 else if records.isEmpty then 1 else 0

/-! Embedding of `scripts/aldrich_mcp.py`. -/

/-- The decoded JSON payload of the Playwright helper: HTTP status and the
`content-type` response header. -/
structure McpHelperResponse where
  status : Nat
  content_type : PyStr
deriving DecidableEq

/-- One helper invocation: a non-zero helper exit code or undecodable JSON
count as failure. -/
inductive McpHelperResult where
  | failed
  | ok (response : McpHelperResponse)
deriving DecidableEq

/-- The `languages` value assigned at record creation in
`download_with_playwright` (`scripts/aldrich_mcp.py` line 91):
`[accept_language.split(",")[0].split("-")[1].lower()]`.  For the
`Accept-Language` built by `main` this is the lowered country code, not a
language code.  (In `main`'s flow both list indices always exist.) -/
def mcp_initial_languages (accept_language : PyStr) : List PyStr :=
  [pyLower ((((accept_language.splitOn 44).getD 0 []).splitOn 45).getD 1 [])]

/-- `scripts/aldrich_mcp.py`, `download_with_playwright` (lines 35-94):
helper failure, non-200 status, or a content type without a `pdf` marker
yield no record; otherwise the record is created with the
`Accept-Language`-derived `languages` value. -/
def mcp_download_with_playwright (helper : McpHelperResult)
    (sds_url output_path referer accept_language : PyStr) :
    Option DownloadRecord :=
  match helper with
  | .failed => none
  | .ok r =>
      if r.status ≠ 200 then none
      else if !pyIn (S "pdf") (pyLower r.content_type) then none
      else some
        { path := output_path
          languages := mcp_initial_languages accept_language
          source_url := sds_url
          metadata := [(S "referer", referer)] }

/-- The `Accept-Language` header built by `main`
(`scripts/aldrich_mcp.py` line 139). -/
def mcp_accept_language (default_language country : PyStr) : PyStr :=
  default_language ++ S "-" ++ country ++ S "," ++ default_language
    ++ S ";q=0.9,en-US;q=0.8,en;q=0.7"

/-- `scripts/aldrich_mcp.py`, `main` lines 149-164: the download loop.  A
successful helper call returns a record whose `languages` field is then
reassigned to `[language.lower()]` (line 163) before the record is
appended. -/
def mcp_main_loop (country default_language brand product_number product_url
    output_root : PyStr) (languages : List PyStr)
    (helper : PyStr → McpHelperResult) : List DownloadRecord :=
  match languages with
  | [] => []
  | language :: rest =>
      let sds_url := S "https://www.sigmaaldrich.com/" ++ country ++ S "/"
        ++ language ++ S "/sds/" ++ brand ++ S "/" ++ product_number
      let output_path := output_root ++ S "/"
        ++ aldrich_filename product_number country language
      let tail := mcp_main_loop country default_language brand product_number
        product_url output_root rest helper
      match mcp_download_with_playwright (helper language) sds_url output_path
          product_url (mcp_accept_language default_language country) with
      | some record => { record with languages := [pyLower language] } :: tail
      | none => tail

/-! Embedding of `scripts/thermofisher_sds.py`. -/

/-- The deterministic Thermo Fisher output filename,
`f"{root_sku}_{language.upper()}.pdf"` (`scripts/thermofisher_sds.py`
line 322); no disposition header is consulted. -/
def thermofisher_filename (root_sku language : PyStr) : PyStr :=
  root_sku ++ S "_" ++ pyUpper language ++ S ".pdf"

/-- One language round of `download_for_product`: `fetch_sds_url` plus
`download_pdf` either raise (any exception is caught by the loop body) or
produce the SDS URL and the validated PDF bytes. -/
inductive ThermoFetchOutcome where
  | failed
  | ok (pdf_url : PyStr) (content : List Nat)
deriving DecidableEq

/-- `scripts/thermofisher_sds.py`, `download_for_product` (lines 301-336):
per language, a failure is logged and skipped while a success writes
`{root_sku}_{LANG}.pdf` and appends a record; the result pairs every
language with the outcome of its round. -/
def thermofisher_download_for_product (root_sku output_dir : PyStr)
    (languages : List PyStr) (fetch : PyStr → ThermoFetchOutcome) :
    List (PyStr × ThermoFetchOutcome) × List DownloadRecord :=
  match languages with
  | [] => ([], [])
  | language :: rest =>
      let tail := thermofisher_download_for_product root_sku output_dir rest fetch
      match fetch language with
      | .failed => ((language, .failed) :: tail.1, tail.2)
      | .ok pdf_url content =>
          ((language, .ok pdf_url content) :: tail.1,
            { path := output_dir ++ S "/" ++ thermofisher_filename root_sku language
              languages := [language]
              source_url := pdf_url
              metadata := [(S "rootSku", root_sku)] } :: tail.2)

/-- `scripts/thermofisher_sds.py`, `main`: exit status.  `SystemExit(1)` is
raised only when a search term resolves to no product or no product URL is
available; every other path (including a caught exception that clears
`all_records`) prints the summary and exits 0. -/
def thermofisher_exit_code (resolve_failed : Bool)
    (records : List DownloadRecord) : Nat :=
  if resolve_failed then 1 else 0

/-- The cap test `max_products is not None and fetched >= max_products`
from `iter_category_products` (`scripts/thermofisher_sds.py` line 276). -/
def capReached (max_products : Option Nat) (fetched : Nat) : Bool :=
  match max_products with
  | none => false
  | some m => decide (m ≤ fetched)

/-- The inner `for product in results` loop of `iter_category_products`
(`scripts/thermofisher_sds.py` lines 273-277): yield each item, increment
`fetched`, and return from the generator as soon as the cap is reached.
Returns the yielded items, the new `fetched`, and whether the generator
returned early. -/
def yieldPage (results : List PyStr) (fetched : Nat)
    (max_products : Option Nat) : List PyStr × Nat × Bool :=
  match results with
  | [] => ([], fetched, false)
  | product :: rest =>
      let fetched' := fetched + 1
      if capReached max_products fetched' then ([product], fetched', true)
      else
        let tail := yieldPage rest fetched' max_products
        (product :: tail.1, tail.2.1, tail.2.2)

def iterCategoryGo (pages : Nat → List PyStr) (count : Nat)
    (max_products : Option Nat) (page fetched : Nat) : List PyStr :=
  if h1 : (pages page).isEmpty then []
  else
    if (yieldPage (pages page) fetched max_products).2.2 then
      (yieldPage (pages page) fetched max_products).1
    else if h3 : count ≤ (yieldPage (pages page) fetched max_products).2.1 then
      (yieldPage (pages page) fetched max_products).1
    else
      (yieldPage (pages page) fetched max_products).1 ++
        iterCategoryGo pages count max_products (page + 1)
          (yieldPage (pages page) fetched max_products).2.1
termination_by count - fetched
decreasing_by
  have key : ∀ (results : List PyStr) (f : Nat),
      f ≤ (yieldPage results f max_products).2.1 := by
    intro results
    induction results with
    | nil => intro f; exact Nat.le_refl _
    | cons product rest ih =>
        intro f
        unfold yieldPage
        by_cases hc : capReached max_products (f + 1)
        · simp only [if_pos hc]; omega
        · simp only [if_neg hc]
          have := ih (f + 1)
          omega
  have key2 : fetched < (yieldPage (pages page) fetched max_products).2.1 := by
    cases hres : pages page with
    | nil => rw [hres] at h1; simp at h1
    | cons product rest =>
        unfold yieldPage
        by_cases hc : capReached max_products (fetched + 1)
        · simp only [if_pos hc]; omega
        · simp only [if_neg hc]
          have := key rest (fetched + 1)
          omega
  omega

/-- `scripts/thermofisher_sds.py`, `iter_category_products`: start at page
1 with `fetched = 0`. -/
def iter_category_products (pages : Nat → List PyStr) (count : Nat)
    (max_products : Option Nat) : List PyStr :=
  iterCategoryGo pages count max_products 1 0

/-- A category server in the shape the spec assumes: page `p` holds the
items of the catalog from position `(p-1)*page_size`, at most `page_size`
of them, and the reported count is the catalog length. -/
def standardPages (items : List PyStr) (page_size : Nat) (page : Nat) : List PyStr :=
  (items.drop ((page - 1) * page_size)).take page_size

/-! Concrete fixtures used by individual scenario theorems. -/

/-- A category server whose page 2 overshoots the reported total of 3:
pages 1 and 2 hold two items each, later pages are empty. -/
def c3Pages : Nat → List PyStr := fun p =>
  if p = 1 then [S "a", S "b"] else if p = 2 then [S "c", S "d"] else []

/-- TCI metadata for a product page listing `ko` as the only available
SDS language. -/
def c6_meta : SDSMetadata :=
  { product_code := S "L0483"
    selected_country := S "KR"
    languages := [(S "ko", S "Korean")]
    context_path := S "/" }

/-- A network where the `ko` POST succeeds with a PDF body and every other
request fails in transport. -/
def c6_fetch : PyStr → TciFetchResult := fun lang =>
  if lang = S "ko" then
    .ok { status_code := 200, content_type := S "application/pdf",
          disposition := [], content := [37, 80, 68, 70] }
  else .error

/-- A Playwright helper that always reports a 200 PDF response. -/
def c8_helper : PyStr → McpHelperResult := fun _ =>
  .ok { status := 200, content_type := S "application/pdf" }

/-- TCI metadata whose page lists no available SDS languages. -/
def c10_meta : SDSMetadata :=
  { product_code := S "L0483"
    selected_country := S "KR"
    languages := []
    context_path := S "/" }

/-! Basic facts about the Python string primitives. -/

theorem pyLowerChar_pyLowerChar (c : Nat) :
    pyLowerChar (pyLowerChar c) = pyLowerChar c := by
  unfold pyLowerChar
  split
  · next h => rw [if_neg (by omega)]
  · rfl

theorem pyLower_pyLower (s : PyStr) : pyLower (pyLower s) = pyLower s := by
  unfold pyLower
  rw [List.map_map]
  apply List.map_congr_left
  intro c _
  exact pyLowerChar_pyLowerChar c

theorem pyIsSpace_pyLowerChar (c : Nat) :
    pyIsSpace (pyLowerChar c) = pyIsSpace c := by
  unfold pyIsSpace pyLowerChar
  split
  · next h => simp only [decide_eq_decide]; omega
  · rfl

theorem list_map_id_of {α : Type} (f : α → α) :
    ∀ l : List α, (∀ x ∈ l, f x = x) → l.map f = l := by
  intro l
  induction l with
  | nil => intro _; rfl
  | cons x xs ih =>
      intro h
      simp only [List.map_cons]
      rw [h x (List.mem_cons_self x xs), ih (fun y hy => h y (List.mem_cons_of_mem x hy))]

theorem dropWhile_dropWhile (p : Nat → Bool) (l : PyStr) :
    (l.dropWhile p).dropWhile p = l.dropWhile p := by
  induction l with
  | nil => rfl
  | cons x xs ih =>
      by_cases h : p x
      · simp [List.dropWhile_cons, h, ih]
      · simp [List.dropWhile_cons, h]

theorem dropWhile_length_le (p : Nat → Bool) (l : PyStr) :
    (l.dropWhile p).length ≤ l.length := by
  induction l with
  | nil => exact Nat.le_refl _
  | cons x xs ih =>
      by_cases h : p x
      · simp only [List.dropWhile_cons, if_pos h, List.length_cons]
        omega
      · simp [List.dropWhile_cons, h]

theorem dropWhile_eq_self_of_isPrefixOf (p : Nat → Bool) (l₁ l₂ : PyStr)
    (hpre : l₁ <+: l₂) (h : l₂.dropWhile p = l₂) : l₁.dropWhile p = l₁ := by
  cases l₁ with
  | nil => rfl
  | cons a t =>
      obtain ⟨r, hr⟩ := hpre
      have hl₂ : l₂ = a :: (t ++ r) := by rw [← hr]; rfl
      have hpa : p a = false := by
        by_contra hpa
        have hpa' : p a = true := by
          cases hp : p a
          · exact absurd hp hpa
          · rfl
        rw [hl₂] at h
        rw [List.dropWhile_cons, if_pos hpa'] at h
        have hlen := congrArg List.length h
        have hle := dropWhile_length_le p (t ++ r)
        simp only [List.length_cons] at hlen
        omega
      rw [List.dropWhile_cons, if_neg (by rw [hpa]; exact Bool.false_ne_true)]

theorem dropWhile_isSuffixOf (p : Nat → Bool) (l : PyStr) :
    ∃ t, t ++ l.dropWhile p = l := by
  induction l with
  | nil => exact ⟨[], rfl⟩
  | cons x xs ih =>
      by_cases h : p x
      · obtain ⟨t, ht⟩ := ih
        exact ⟨x :: t, by simp [List.dropWhile_cons, h, ht]⟩
      · exact ⟨[], by simp [List.dropWhile_cons, h]⟩

theorem revDrop_isPrefixOf (p : Nat → Bool) (l : PyStr) :
    (l.reverse.dropWhile p).reverse <+: l := by
  obtain ⟨t, ht⟩ := dropWhile_isSuffixOf p l.reverse
  refine ⟨t.reverse, ?_⟩
  rw [← List.reverse_append, ht, List.reverse_reverse]

theorem pyStrip_rev_dropWhile (s : PyStr) :
    (pyStrip s).reverse.dropWhile pyIsSpace = (pyStrip s).reverse := by
  unfold pyStrip
  rw [List.reverse_reverse]
  exact dropWhile_dropWhile pyIsSpace _

theorem pyStrip_dropWhile (s : PyStr) :
    (pyStrip s).dropWhile pyIsSpace = pyStrip s := by
  apply dropWhile_eq_self_of_isPrefixOf pyIsSpace _ (s.dropWhile pyIsSpace)
  · exact revDrop_isPrefixOf pyIsSpace _
  · exact dropWhile_dropWhile pyIsSpace s

theorem pyStrip_pyStrip (s : PyStr) : pyStrip (pyStrip s) = pyStrip s := by
  show (((pyStrip s).dropWhile pyIsSpace).reverse.dropWhile pyIsSpace).reverse = pyStrip s
  rw [pyStrip_dropWhile, pyStrip_rev_dropWhile, List.reverse_reverse]

theorem pyStrip_pyLower (s : PyStr) : pyStrip (pyLower s) = pyLower (pyStrip s) := by
  have hcomp : (pyIsSpace ∘ pyLowerChar) = pyIsSpace := by
    funext c; exact pyIsSpace_pyLowerChar c
  unfold pyStrip pyLower
  rw [List.dropWhile_map, hcomp, ← List.map_reverse, List.dropWhile_map, hcomp,
    ← List.map_reverse]

/-- Each output entry of `normalize_languages` is a stripped-and-lowered
non-blank input entry, and conversely. -/
theorem mem_normalize_languages {l : List PyStr} {x : PyStr} :
    x ∈ normalize_languages l ↔
      ∃ y ∈ l, ¬(pyStrip y).isEmpty ∧ x = pyLower (pyStrip y) := by
  unfold normalize_languages
  by_cases hl : l.isEmpty
  · rw [if_pos hl]
    simp [List.isEmpty_iff.mp hl]
  · rw [if_neg hl]
    rw [(List.perm_insertionSort (· ≤ ·) _).mem_iff, List.mem_dedup, List.mem_map]
    constructor
    · rintro ⟨y, hy, rfl⟩
      have hy' := List.mem_filter.mp hy
      exact ⟨y, hy'.1, by simpa using hy'.2, rfl⟩
    · rintro ⟨y, hy, hne, rfl⟩
      exact ⟨y, List.mem_filter.mpr ⟨hy, by simpa using hne⟩, rfl⟩

theorem normalize_languages_sorted (l : List PyStr) :
    (normalize_languages l).Sorted (· ≤ ·) := by
  unfold normalize_languages
  by_cases hl : l.isEmpty
  · rw [if_pos hl]; exact List.sorted_nil
  · rw [if_neg hl]; exact List.sorted_insertionSort _ _

theorem normalize_languages_nodup (l : List PyStr) :
    (normalize_languages l).Nodup := by
  unfold normalize_languages
  by_cases hl : l.isEmpty
  · rw [if_pos hl]; exact List.nodup_nil
  · rw [if_neg hl]
    exact (List.perm_insertionSort (· ≤ ·) _).symm.nodup (List.nodup_dedup _)

theorem normalize_languages_perm_eq (l l' : List PyStr) (h : l.Perm l') :
    normalize_languages l = normalize_languages l' := by
  unfold normalize_languages
  have hiff : l.isEmpty = l'.isEmpty := by
    have := h.length_eq
    cases l <;> cases l' <;> simp_all
  by_cases hl : l.isEmpty
  · rw [if_pos hl, if_pos (hiff ▸ hl)]
  · rw [if_neg hl, if_neg (hiff ▸ hl)]
    exact List.eq_of_perm_of_sorted
      (((List.perm_insertionSort _ _).trans
        (((h.filter _).map _).dedup)).trans (List.perm_insertionSort _ _).symm)
      (List.sorted_insertionSort _ _) (List.sorted_insertionSort _ _)

theorem normalize_languages_mem_normal {l : List PyStr} {x : PyStr}
    (hx : x ∈ normalize_languages l) : pyStrip x = x ∧ pyLower x = x := by
  obtain ⟨y, _, _, rfl⟩ := mem_normalize_languages.mp hx
  constructor
  · rw [pyStrip_pyLower, pyStrip_pyStrip]
  · rw [pyLower_pyLower]

theorem normalize_languages_eq_self (r : List PyStr) (hne : ¬r.isEmpty)
    (hfix : ∀ x ∈ r, ¬(pyStrip x).isEmpty ∧ pyLower (pyStrip x) = x)
    (hnd : r.Nodup) (hs : r.Sorted (· ≤ ·)) : normalize_languages r = r := by
  unfold normalize_languages
  rw [if_neg hne]
  rw [List.filter_eq_self.mpr (fun x hx => by simpa using (hfix x hx).1)]
  rw [list_map_id_of _ _ (fun x hx => (hfix x hx).2)]
  rw [hnd.dedup]
  exact hs.insertionSort_eq

theorem normalize_languages_idem (l : List PyStr) :
    normalize_languages (normalize_languages l) = normalize_languages l := by
  by_cases hr : (normalize_languages l).isEmpty
  · rw [List.isEmpty_iff.mp hr]; rfl
  · refine normalize_languages_eq_self _ hr (fun x hx => ?_)
      (normalize_languages_nodup l) (normalize_languages_sorted l)
    obtain ⟨hs, hlow⟩ := normalize_languages_mem_normal hx
    obtain ⟨y, _, hyne, hyx⟩ := mem_normalize_languages.mp hx
    refine ⟨?_, by rw [hs, hlow]⟩
    rw [hs, hyx]
    simpa [pyLower] using hyne

/-! Structural facts about the download loops. -/

/-- Every requested language is processed, in order, whatever the
per-language outcomes are. -/
theorem tci_outcomes_fst (meta : SDSMetadata) (sds_url output_dir : PyStr)
    (languages : List PyStr) (fetch : PyStr → TciFetchResult) :
    (tci_download_sds_documents meta sds_url output_dir languages fetch).1.map Prod.fst
      = languages := by
  induction languages with
  | nil => rfl
  | cons requested rest ih =>
      unfold tci_download_sds_documents
      cases tci_process_language meta fetch requested <;>
        simp [List.map_cons, ih]

/-- The records of a TCI run are exactly the saved outcomes, with the
fields given to them at creation. -/
theorem tci_records_eq (meta : SDSMetadata) (sds_url output_dir : PyStr)
    (languages : List PyStr) (fetch : PyStr → TciFetchResult) :
    (tci_download_sds_documents meta sds_url output_dir languages fetch).2
      = (tci_download_sds_documents meta sds_url output_dir languages fetch).1.filterMap
          (fun p => match p.2 with
            | .saved filename _ =>
                some (tci_record_for meta sds_url output_dir (pyStrip p.1) filename)
            | _ => none) := by
  induction languages with
  | nil => rfl
  | cons requested rest ih =>
      unfold tci_download_sds_documents
      cases tci_process_language meta fetch requested <;>
        simp [List.filterMap_cons, ih]

/-- Every requested language gets exactly one Thermo Fisher round, in
order. -/
theorem thermofisher_outcomes_fst (root_sku output_dir : PyStr)
    (languages : List PyStr) (fetch : PyStr → ThermoFetchOutcome) :
    (thermofisher_download_for_product root_sku output_dir languages fetch).1.map Prod.fst
      = languages := by
  induction languages with
  | nil => rfl
  | cons language rest ih =>
      unfold thermofisher_download_for_product
      cases fetch language <;> simp [List.map_cons, ih]

/-- The records of a Thermo Fisher product run are exactly the successful
rounds, with the fields given to them at creation. -/
theorem thermofisher_records_eq (root_sku output_dir : PyStr)
    (languages : List PyStr) (fetch : PyStr → ThermoFetchOutcome) :
    (thermofisher_download_for_product root_sku output_dir languages fetch).2
      = (thermofisher_download_for_product root_sku output_dir languages fetch).1.filterMap
          (fun p => match p.2 with
            | .ok pdf_url _ =>
                some { path := output_dir ++ S "/" ++ thermofisher_filename root_sku p.1
                       languages := [p.1]
                       source_url := pdf_url
                       metadata := [(S "rootSku", root_sku)] }
            | .failed => none) := by
  induction languages with
  | nil => rfl
  | cons language rest ih =>
      unfold thermofisher_download_for_product
      cases hf : fetch language <;> simp [List.filterMap_cons, hf, ih]

/-- The Aldrich loop attempts exactly the languages it is handed, in
order. -/
theorem aldrich_main_loop_fst (country brand product_number product_url
    output_root : PyStr) (languages : List PyStr)
    (fetch : PyStr → AldrichFetchResult) :
    (aldrich_main_loop country brand product_number product_url output_root
        languages fetch).1 = languages := by
  induction languages with
  | nil => rfl
  | cons language rest ih =>
      unfold aldrich_main_loop
      dsimp only
      split <;> simp [ih]

/-- The MCP loop's records are the created records with the `languages`
field reassigned to the loop language, and nothing else changed. -/
theorem mcp_main_loop_eq (country default_language brand product_number
    product_url output_root : PyStr) (languages : List PyStr)
    (helper : PyStr → McpHelperResult) :
    mcp_main_loop country default_language brand product_number product_url
        output_root languages helper
      = languages.filterMap (fun language =>
          (mcp_download_with_playwright (helper language)
              (S "https://www.sigmaaldrich.com/" ++ country ++ S "/" ++ language
                ++ S "/sds/" ++ brand ++ S "/" ++ product_number)
              (output_root ++ S "/" ++ aldrich_filename product_number country language)
              product_url (mcp_accept_language default_language country)).map
            (fun record => { record with languages := [pyLower language] })) := by
  induction languages with
  | nil => rfl
  | cons language rest ih =>
      unfold mcp_main_loop
      dsimp only
      rw [List.filterMap_cons]
      split <;> rename_i heq <;> rw [heq] <;> simp [ih]

/-! Evaluation of the disposition regex on a standard quoted header. -/

theorem scanQuoted_closing (X : PyStr)
    (hX : ∀ c ∈ X, isQuoteChar c = false ∧ c ≠ 10) :
    scanQuoted 34 (X ++ [34]) = some X := by
  induction X with
  | nil => simp [scanQuoted]
  | cons c rest ih =>
      have hc := hX c (List.mem_cons_self c rest)
      have h34 : ¬c = 34 := by
        intro h
        rw [h] at hc
        exact absurd hc.1 (by decide)
      rw [List.cons_append, scanQuoted]
      rw [if_neg h34, if_neg hc.2,
        ih (fun d hd => hX d (List.mem_cons_of_mem c hd))]
      rfl

theorem dispGroup1After_quoted (X : PyStr)
    (hX : ∀ c ∈ X, isQuoteChar c = false ∧ c ≠ 10) :
    dispGroup1After (61 :: (34 :: (X ++ [34]))) = some (34 :: (X ++ [34])) := by
  have hdw : (61 :: (34 :: (X ++ [34]))).dropWhile dispTokenChar
      = 61 :: (34 :: (X ++ [34])) := by
    rw [List.dropWhile_cons, if_neg (by decide)]
  unfold dispGroup1After
  rw [hdw]
  dsimp only
  rw [if_pos rfl, if_pos (by decide), scanQuoted_closing X hX]

theorem stripQuotes_quoted (X : PyStr) (hne : X ≠ [])
    (hqX : ∀ c ∈ X, isQuoteChar c = false) :
    stripQuotes (34 :: (X ++ [34])) = X := by
  have h34 : isQuoteChar 34 = true := by decide
  unfold stripQuotes
  rw [List.dropWhile_cons, if_pos h34]
  have h1 : (X ++ [34]).dropWhile isQuoteChar = X ++ [34] := by
    cases X with
    | nil => exact absurd rfl hne
    | cons c rest =>
        rw [List.cons_append, List.dropWhile_cons,
          if_neg (by rw [hqX c (List.mem_cons_self c rest)]; exact Bool.false_ne_true)]
  rw [h1]
  have h2 : (X ++ [34]).reverse = 34 :: X.reverse := by simp
  rw [h2, List.dropWhile_cons, if_pos h34]
  have h3 : X.reverse.dropWhile isQuoteChar = X.reverse := by
    cases hrev : X.reverse with
    | nil => rfl
    | cons d tail =>
        have hd : d ∈ X := List.mem_reverse.mp
          (by rw [hrev]; exact List.mem_cons_self d tail)
        rw [List.dropWhile_cons,
          if_neg (by rw [hqX d hd]; exact Bool.false_ne_true)]
  rw [h3, List.reverse_reverse]

theorem dispSearch_attachment (X : PyStr)
    (hX : ∀ c ∈ X, isQuoteChar c = false ∧ c ≠ 10) :
    dispSearch (S "attachment; filename=" ++ (34 :: (X ++ [34])))
      = some (34 :: (X ++ [34])) := by
  have hS : S "attachment; filename="
      = [97, 116, 116, 97, 99, 104, 109, 101, 110, 116, 59, 32,
         102, 105, 108, 101, 110, 97, 109, 101, 61] := by decide
  have hf : S "filename" = [102, 105, 108, 101, 110, 97, 109, 101] := by decide
  rw [hS]
  simp only [List.cons_append, List.nil_append]
  rw [dispSearch]
  rw [if_neg (by rw [hf]; simp [List.isPrefixOf])]
  rw [dispSearch]
  rw [if_neg (by rw [hf]; simp [List.isPrefixOf])]
  rw [dispSearch]
  rw [if_neg (by rw [hf]; simp [List.isPrefixOf])]
  rw [dispSearch]
  rw [if_neg (by rw [hf]; simp [List.isPrefixOf])]
  rw [dispSearch]
  rw [if_neg (by rw [hf]; simp [List.isPrefixOf])]
  rw [dispSearch]
  rw [if_neg (by rw [hf]; simp [List.isPrefixOf])]
  rw [dispSearch]
  rw [if_neg (by rw [hf]; simp [List.isPrefixOf])]
  rw [dispSearch]
  rw [if_neg (by rw [hf]; simp [List.isPrefixOf])]
  rw [dispSearch]
  rw [if_neg (by rw [hf]; simp [List.isPrefixOf])]
  rw [dispSearch]
  rw [if_neg (by rw [hf]; simp [List.isPrefixOf])]
  rw [dispSearch]
  rw [if_neg (by rw [hf]; simp [List.isPrefixOf])]
  rw [dispSearch]
  rw [if_neg (by rw [hf]; simp [List.isPrefixOf])]
  rw [dispSearch]
  rw [if_pos (by rw [hf]; simp [List.isPrefixOf])]
  dsimp only [List.drop_succ_cons, List.drop_zero]
  rw [dispGroup1After_quoted X hX]

/-- With a standard quoted disposition header the derived filename is
exactly the quoted value. -/
theorem tci_filename_quoted (X product_code lang : PyStr) (hne : X ≠ [])
    (hX : ∀ c ∈ X, isQuoteChar c = false ∧ c ≠ 10) :
    tci_filename (S "attachment; filename=" ++ (34 :: (X ++ [34])))
        product_code lang = X := by
  have hemp : (S "attachment; filename=" ++ (34 :: (X ++ [34]))).isEmpty = false := by
    have : S "attachment; filename="
        = [97, 116, 116, 97, 99, 104, 109, 101, 110, 116, 59, 32,
           102, 105, 108, 101, 110, 97, 109, 101, 61] := by decide
    rw [this]
    rfl
  have hXemp : X.isEmpty = false := by
    cases X with
    | nil => exact absurd rfl hne
    | cons c rest => rfl
  unfold tci_filename
  rw [hemp]
  simp only [Bool.false_eq_true, if_false]
  rw [dispSearch_attachment X hX, Option.map_some',
    stripQuotes_quoted X hne (fun c hc => (hX c hc).1)]
  dsimp only
  rw [hXemp]
  simp only [Bool.false_eq_true, if_false]

/-- With no disposition header (`headers.get` default: the empty string)
the TCI filename is the fallback `{product_code}_{lang}.pdf`. -/
theorem tci_filename_fallback (product_code lang : PyStr) :
    tci_filename [] product_code lang = product_code ++ S "_" ++ lang ++ S ".pdf" := by
  rfl

/-! Computation laws of the catalog enumerator. -/

theorem yieldPage_none_eq (results : List PyStr) :
    ∀ fetched, yieldPage results fetched none
      = (results, fetched + results.length, false) := by
  induction results with
  | nil => intro fetched; rfl
  | cons product rest ih =>
      intro fetched
      unfold yieldPage
      rw [if_neg (by simp [capReached])]
      rw [ih (fetched + 1)]
      refine congrArg (Prod.mk (product :: rest)) ?_
      refine congrArg (fun n => Prod.mk n false) ?_
      simp [List.length_cons]
      omega

theorem yieldPage_some_eq (m : Nat) (results : List PyStr) :
    ∀ fetched, fetched < m →
      yieldPage results fetched (some m)
        = (results.take (m - fetched), min (fetched + results.length) m,
           decide (m ≤ fetched + results.length)) := by
  induction results with
  | nil =>
      intro fetched h
      unfold yieldPage
      simp only [List.take_nil, List.length_nil, Nat.add_zero]
      refine congrArg (Prod.mk []) ?_
      have h1 : min fetched m = fetched := by omega
      have h2 : decide (m ≤ fetched) = false := by
        rw [decide_eq_false_iff_not]
        omega
      rw [h1, h2]
  | cons product rest ih =>
      intro fetched h
      unfold yieldPage
      by_cases hc : capReached (some m) (fetched + 1)
      · have hm : m = fetched + 1 := by
          unfold capReached at hc
          rw [decide_eq_true_eq] at hc
          omega
        rw [if_pos hc]
        have ht : (product :: rest).take (m - fetched) = [product] := by
          rw [hm]
          simp
        have hmin : min (fetched + (product :: rest).length) m = fetched + 1 := by
          simp only [List.length_cons]
          omega
        have hdec : decide (m ≤ fetched + (product :: rest).length) = true := by
          rw [decide_eq_true_eq]
          simp only [List.length_cons]
          omega
        rw [ht, hmin, hdec]
      · have hf : fetched + 1 < m := by
          unfold capReached at hc
          rw [decide_eq_true_eq] at hc
          omega
        rw [if_neg hc, ih (fetched + 1) hf]
        have ht : (product :: rest).take (m - fetched)
            = product :: rest.take (m - (fetched + 1)) := by
          have : m - fetched = (m - (fetched + 1)) + 1 := by omega
          rw [this]
          rfl
        have hmin : min (fetched + 1 + rest.length) m
            = min (fetched + (product :: rest).length) m := by
          simp only [List.length_cons]
          omega
        have hdec : decide (m ≤ fetched + 1 + rest.length)
            = decide (m ≤ fetched + (product :: rest).length) := by
          rw [decide_eq_decide]
          simp only [List.length_cons]
          omega
        rw [ht, hmin, hdec]

theorem iterCategoryGo_standard_stop (items : List PyStr) (sz : Nat)
    (mp : Option Nat) (page fetched : Nat) (hpg : fetched = (page - 1) * sz)
    (hle : items.length ≤ fetched) :
    iterCategoryGo (standardPages items sz) items.length mp page fetched = [] := by
  have hres : standardPages items sz page = [] := by
    unfold standardPages
    rw [← hpg, List.drop_eq_nil_of_le hle, List.take_nil]
  rw [iterCategoryGo, dif_pos (by rw [hres]; rfl)]

theorem iterCategoryGo_standard (items : List PyStr) (sz : Nat) (hsz : 0 < sz)
    (mp : Option Nat) :
    ∀ (fuel page fetched : Nat), items.length - fetched ≤ fuel → 1 ≤ page →
      fetched = (page - 1) * sz →
      (∀ m, mp = some m → fetched < m) →
      (iterCategoryGo (standardPages items sz) items.length mp page fetched).length
        = min (items.length - fetched) ((mp.getD items.length) - fetched) := by
  intro fuel
  induction fuel with
  | zero =>
      intro page fetched hfuel hpage hpg hcap
      have hle : items.length ≤ fetched := by omega
      rw [iterCategoryGo_standard_stop items sz mp page fetched hpg hle]
      cases mp with
      | none => simp only [List.length_nil, Option.getD]; omega
      | some m => simp only [List.length_nil, Option.getD]; omega
  | succ fuel ih =>
      intro page fetched hfuel hpage hpg hcap
      by_cases hend : items.length ≤ fetched
      · rw [iterCategoryGo_standard_stop items sz mp page fetched hpg hend]
        cases mp with
        | none => simp only [List.length_nil, Option.getD]; omega
        | some m => simp only [List.length_nil, Option.getD]; omega
      · have hflt : fetched < items.length := by omega
        have hlen : (standardPages items sz page).length
            = min sz (items.length - fetched) := by
          unfold standardPages
          rw [← hpg, List.length_take, List.length_drop]
        have hnem : ¬((standardPages items sz page).isEmpty = true) := by
          intro h0
          have h1 := congrArg List.length (List.isEmpty_iff.mp h0)
          rw [hlen] at h1
          simp only [List.length_nil] at h1
          omega
        have hpg' : fetched + sz = ((page + 1) - 1) * sz := by
          have hps : page - 1 + 1 = page := Nat.succ_pred_eq_of_pos hpage
          have h2 : (page - 1) * sz + sz = (page - 1 + 1) * sz := by
            rw [Nat.succ_mul]
          simp only [Nat.add_sub_cancel]
          rw [hpg, h2, hps]
        cases mp with
        | none =>
            rw [iterCategoryGo, dif_neg hnem,
              yieldPage_none_eq (standardPages items sz page) fetched]
            dsimp only
            simp only [Bool.false_eq_true, if_false]
            by_cases hstop : items.length ≤ fetched + (standardPages items sz page).length
            · rw [dif_pos hstop]
              rw [hlen] at hstop ⊢
              simp only [Option.getD]
              omega
            · rw [dif_neg hstop]
              rw [List.length_append]
              rw [hlen] at hstop
              have hsz_eq : (standardPages items sz page).length = sz := by
                rw [hlen]; omega
              rw [hsz_eq]
              have ihres := ih (page + 1) (fetched + sz) (by omega) (by omega)
                hpg' (fun m hm => by cases hm)
              rw [ihres]
              simp only [Option.getD]
              omega
        | some m =>
            have hm : fetched < m := hcap m rfl
            rw [iterCategoryGo, dif_neg hnem,
              yieldPage_some_eq m (standardPages items sz page) fetched hm]
            dsimp only
            by_cases hcap2 : m ≤ fetched + (standardPages items sz page).length
            · rw [if_pos (by rw [decide_eq_true_eq]; exact hcap2)]
              rw [List.length_take, hlen]
              rw [hlen] at hcap2
              simp only [Option.getD]
              omega
            · rw [if_neg (by rw [decide_eq_true_eq]; exact hcap2)]
              have hmin1 : min (fetched + (standardPages items sz page).length) m
                  = fetched + (standardPages items sz page).length := by
                omega
              rw [hmin1]
              by_cases hstop : items.length ≤ fetched + (standardPages items sz page).length
              · rw [dif_pos hstop]
                rw [List.length_take, hlen]
                rw [hlen] at hstop hcap2
                simp only [Option.getD]
                omega
              · rw [dif_neg hstop]
                rw [List.length_append, List.length_take, hlen]
                rw [hlen] at hstop hcap2
                have hsz_eq : min (m - fetched) (min sz (items.length - fetched)) = sz := by
                  omega
                rw [hsz_eq]
                have hrsz : min sz (items.length - fetched) = sz := by omega
                have ihres := ih (page + 1) (fetched + sz) (by omega) (by omega)
                  hpg' (fun m' hm' => by
                    rw [Option.some_inj] at hm'
                    subst hm'
                    omega)
                rw [hrsz] at hstop hcap2 ⊢
                rw [ihres]
                simp only [Option.getD]
                omega

/-! Inversion facts for the validators. -/

/-- A TCI loop body only reports `saved` when the POST returned status 200
with an accepted content type, and the written bytes are the response
body. -/
theorem tci_saved_inv (meta : SDSMetadata) (fetch : PyStr → TciFetchResult)
    (requested filename : PyStr) (contentBytes : List Nat)
    (h : tci_process_language meta fetch requested
      = TciLangOutcome.saved filename contentBytes) :
    ∃ r, fetch (pyStrip requested) = TciFetchResult.ok r ∧
      r.status_code = 200 ∧
      (pyIn (S "pdf") (pyLower r.content_type) = true ∨
        pyIn (S "octet-stream") (pyLower r.content_type) = true) ∧
      contentBytes = r.content ∧
      filename = tci_filename r.disposition meta.product_code (pyStrip requested) := by
  unfold tci_process_language at h
  by_cases h1 : (pyStrip requested).isEmpty = true
  · rw [if_pos h1] at h; cases h
  · rw [if_neg h1] at h
    by_cases h2 : (!(tci_available_codes meta).isEmpty
        && !((tci_available_codes meta).contains (pyStrip requested))) = true
    · rw [if_pos h2] at h; cases h
    · rw [if_neg h2] at h
      cases hf : fetch (pyStrip requested) with
      | error => rw [hf] at h; cases h
      | ok r =>
          rw [hf] at h
          dsimp only at h
          by_cases h3 : r.status_code ≠ 200
          · rw [if_pos h3] at h; cases h
          · rw [if_neg h3] at h
            by_cases h4 : (!pyIn (S "pdf") (pyLower r.content_type)
                && !pyIn (S "octet-stream") (pyLower r.content_type)) = true
            · rw [if_pos h4] at h; cases h
            · rw [if_neg h4] at h
              injection h with hfn hcb
              refine ⟨r, rfl, by omega, ?_, hcb.symm, hfn.symm⟩
              cases hpdf : pyIn (S "pdf") (pyLower r.content_type) with
              | true => exact Or.inl rfl
              | false =>
                  cases hoct : pyIn (S "octet-stream") (pyLower r.content_type) with
                  | true => exact Or.inr rfl
                  | false => exact absurd (by rw [hpdf, hoct]; rfl) h4

/-- `AldrichClient.download_sds` only returns a record when the response
had status 200 and a `pdf` content type, and the written bytes are the
response body. -/
theorem aldrich_some_inv (fetchResult : AldrichFetchResult)
    (sds_url output_path product_url language : PyStr)
    (contentBytes : List Nat) (record : DownloadRecord)
    (h : aldrich_download_sds fetchResult sds_url output_path product_url language
      = some (contentBytes, record)) :
    ∃ r, fetchResult = AldrichFetchResult.ok r ∧ r.status_code = 200 ∧
      pyIn (S "pdf") (pyLower r.content_type) = true ∧
      contentBytes = r.content := by
  cases fetchResult with
  | error => cases h
  | ok r =>
      unfold aldrich_download_sds at h
      dsimp only at h
      by_cases h3 : r.status_code ≠ 200
      · rw [if_pos h3] at h; cases h
      · rw [if_neg h3] at h
        by_cases h4 : (!pyIn (S "pdf") (pyLower r.content_type)) = true
        · rw [if_pos h4] at h; cases h
        · rw [if_neg h4] at h
          injection h with hpr
          refine ⟨r, rfl, by omega, ?_, (congrArg Prod.fst hpr).symm⟩
          cases hpdf : pyIn (S "pdf") (pyLower r.content_type) with
          | true => rfl
          | false => exact absurd (by rw [hpdf]; rfl) h4

/-- With an empty availability map the TCI loop body skips only blank
codes and never reports a language as unavailable. -/
theorem tci_process_language_no_avail (meta : SDSMetadata)
    (fetch : PyStr → TciFetchResult) (requested : PyStr)
    (h : tci_available_codes meta = []) :
    (tci_process_language meta fetch requested = TciLangOutcome.skippedBlank
      ↔ (pyStrip requested).isEmpty = true) ∧
    tci_process_language meta fetch requested ≠ TciLangOutcome.skippedUnavailable := by
  unfold tci_process_language
  by_cases h1 : (pyStrip requested).isEmpty = true
  · rw [if_pos h1]
    exact ⟨⟨fun _ => h1, fun _ => rfl⟩, by simp⟩
  · rw [if_neg h1]
    rw [if_neg (by rw [h]; simp)]
    cases hf : fetch (pyStrip requested) with
    | error => exact ⟨⟨fun hc => (nomatch hc), fun hh => absurd hh h1⟩, by simp⟩
    | ok r =>
        dsimp only
        by_cases h3 : r.status_code ≠ 200
        · rw [if_pos h3]
          exact ⟨⟨fun hc => (nomatch hc), fun hh => absurd hh h1⟩, by simp⟩
        · rw [if_neg h3]
          by_cases h4 : (!pyIn (S "pdf") (pyLower r.content_type)
              && !pyIn (S "octet-stream") (pyLower r.content_type)) = true
          · rw [if_pos h4]
            exact ⟨⟨fun hc => (nomatch hc), fun hh => absurd hh h1⟩, by simp⟩
          · rw [if_neg h4]
            exact ⟨⟨fun hc => (nomatch hc), fun hh => absurd hh h1⟩, by simp⟩

/-- The outcome list of a TCI run unfolds one language at a time. -/
theorem tci_download_outcomes_cons (meta : SDSMetadata)
    (sds_url output_dir requested : PyStr) (rest : List PyStr)
    (fetch : PyStr → TciFetchResult) :
    (tci_download_sds_documents meta sds_url output_dir (requested :: rest) fetch).1
      = (requested, tci_process_language meta fetch requested)
          :: (tci_download_sds_documents meta sds_url output_dir rest fetch).1 := by
  conv_lhs => rw [tci_download_sds_documents]
  split <;> rfl

/-! The claims. -/

/-- C1 (amended): only the Aldrich scripts implement "exit zero iff at
least one DownloadRecord": their exit status is 0 exactly when no early
fatal failure occurred and the record list is non-empty.  The TCI and
Thermo Fisher scripts exit 0 whenever resolution and the initial page
fetch succeed, regardless of whether any record was produced. -/
theorem C1_exit_status :
    (∀ (early_failure : Bool) (records : List DownloadRecord),
        aldrich_exit_code early_failure records = 0
          ↔ (early_failure = false ∧ records ≠ [])) ∧
    (∀ (search_failed page_fetch_failed : Bool) (records : List DownloadRecord),
        tci_exit_code search_failed page_fetch_failed records = 0
          ↔ (search_failed = false ∧ page_fetch_failed = false)) ∧
    (∀ (resolve_failed : Bool) (records : List DownloadRecord),
        thermofisher_exit_code resolve_failed records = 0
          ↔ resolve_failed = false) := by
  refine ⟨?_, ?_, ?_⟩
  · intro early records
    cases early <;> cases records <;> simp [aldrich_exit_code]
  · intro sf pf records
    cases sf <;> cases pf <;> simp [tci_exit_code]
  · intro rf records
    cases rf <;> simp [thermofisher_exit_code]

/-- C1 counterexample: a TCI run whose page fetch succeeds but which
produces zero download records still exits 0, refuting "exit status zero
iff at least one DownloadRecord was produced". -/
theorem C1_counterexample :
    tci_exit_code false false [] = 0 ∧
    ¬(tci_exit_code false false [] = 0 ↔ ([] : List DownloadRecord) ≠ []) := by
  constructor
  · rfl
  · decide

/-- C2 (amended): with a disposition header `attachment; filename="X"`
(`X` non-empty, quote-free and newline-free) the TCI filename is exactly
`X`; with no disposition header the TCI fallback is
`{product_code}_{lang}.pdf` — without the country code and without
upper-casing — while the Aldrich adapters use
`{product}_{country}_{LANG}.pdf` and Thermo Fisher uses
`{root_sku}_{LANG}.pdf` with no disposition parsing at all. -/
theorem C2_filename (X product_code lang root_sku country : PyStr)
    (hne : X ≠ []) (hX : ∀ c ∈ X, isQuoteChar c = false ∧ c ≠ 10) :
    tci_filename (S "attachment; filename=" ++ (34 :: (X ++ [34])))
        product_code lang = X ∧
    tci_filename [] product_code lang
      = product_code ++ S "_" ++ lang ++ S ".pdf" ∧
    aldrich_filename product_code country lang
      = product_code ++ S "_" ++ country ++ S "_" ++ pyUpper lang ++ S ".pdf" ∧
    thermofisher_filename root_sku lang
      = root_sku ++ S "_" ++ pyUpper lang ++ S ".pdf" :=
  ⟨tci_filename_quoted X product_code lang hne hX,
   tci_filename_fallback product_code lang, rfl, rfl⟩

theorem C2_witness :
    tci_filename (S "attachment; filename=" ++ (34 :: (S "X.pdf" ++ [34])))
        (S "L0483") (S "ko") = S "X.pdf" :=
  (C2_filename (S "X.pdf") (S "L0483") (S "ko") (S "34873") (S "KR")
    (by decide) (by decide)).1

/-- C2 counterexample: with no disposition header the TCI adapter derives
`L0483_ko.pdf`, not the claimed `{productCode}_{countryCode}_{LANGUAGE}`
pattern `L0483_KR_KO.pdf`. -/
theorem C2_counterexample :
    tci_filename [] (S "L0483") (S "ko") = S "L0483_ko.pdf" ∧
    tci_filename [] (S "L0483") (S "ko")
      ≠ S "L0483" ++ S "_" ++ S "KR" ++ S "_" ++ pyUpper (S "ko") ++ S ".pdf" := by
  constructor
  · decide
  · decide

/-- C3 (amended): against a standard server — page `p` carries the catalog
items from position `(p-1)*page_size`, the reported count is the catalog
length — the enumerator yields exactly `min(totalCount, maxProducts)`
items (the cap, when given, must be positive).  In general the totalCount
comparison happens only after a whole page has been yielded, so a server
page that overshoots the reported total makes the enumerator yield more
than `min(totalCount, maxProducts)` items (see the counterexample). -/
theorem C3_enumerator (items : List PyStr) (page_size : Nat) (mp : Option Nat)
    (hsz : 0 < page_size) (hmp : ∀ m, mp = some m → 0 < m) :
    (iter_category_products (standardPages items page_size) items.length mp).length
      = min items.length (mp.getD items.length) := by
  unfold iter_category_products
  have h := iterCategoryGo_standard items page_size hsz mp items.length 1 0
    (by omega) (by omega) (by simp) (fun m hm => hmp m hm)
  simpa using h

theorem C3_witness :
    (iter_category_products
        (standardPages [S "a", S "b", S "c"] 2)
        ([S "a", S "b", S "c"] : List PyStr).length (some 2)).length
      = min ([S "a", S "b", S "c"] : List PyStr).length
          ((some 2).getD ([S "a", S "b", S "c"] : List PyStr).length) :=
  C3_enumerator [S "a", S "b", S "c"] 2 (some 2) (by decide)
    (by intro m hm; injection hm with hm'; omega)

/-- C3 counterexample: with reported totalCount 3 and no cap, a server
whose page 2 holds two items makes the enumerator yield 4 items, not
`min(totalCount, maxProducts) = 3`. -/
theorem C3_counterexample :
    (iter_category_products c3Pages 3 none).length = 4 ∧
    (iter_category_products c3Pages 3 none).length ≠ 3 := by
  constructor <;>
    simp [iter_category_products, iterCategoryGo, c3Pages, yieldPage, capReached]

/-- C4: a per-(product, language) failure never aborts the run: every
requested language is processed, in order, whatever the outcomes are, and
the records list is exactly the successful outcomes — failed pairs are
merely omitted.  This holds for the TCI loop and for the Thermo Fisher
per-product loop. -/
theorem C4_no_abort (meta : SDSMetadata) (sds_url output_dir : PyStr)
    (languages : List PyStr) (fetch : PyStr → TciFetchResult)
    (root_sku t_output_dir : PyStr) (t_languages : List PyStr)
    (t_fetch : PyStr → ThermoFetchOutcome) :
    ((tci_download_sds_documents meta sds_url output_dir languages fetch).1.map
        Prod.fst = languages) ∧
    ((tci_download_sds_documents meta sds_url output_dir languages fetch).2
      = (tci_download_sds_documents meta sds_url output_dir languages fetch).1.filterMap
          (fun p => match p.2 with
            | .saved filename _ =>
                some (tci_record_for meta sds_url output_dir (pyStrip p.1) filename)
            | _ => none)) ∧
    ((thermofisher_download_for_product root_sku t_output_dir t_languages
        t_fetch).1.map Prod.fst = t_languages) ∧
    ((thermofisher_download_for_product root_sku t_output_dir t_languages t_fetch).2
      = (thermofisher_download_for_product root_sku t_output_dir t_languages
          t_fetch).1.filterMap
          (fun p => match p.2 with
            | .ok pdf_url _ =>
                some { path := t_output_dir ++ S "/" ++ thermofisher_filename root_sku p.1
                       languages := [p.1]
                       source_url := pdf_url
                       metadata := [(S "rootSku", root_sku)] }
            | .failed => none)) :=
  ⟨tci_outcomes_fst meta sds_url output_dir languages fetch,
   tci_records_eq meta sds_url output_dir languages fetch,
   thermofisher_outcomes_fst root_sku t_output_dir t_languages t_fetch,
   thermofisher_records_eq root_sku t_output_dir t_languages t_fetch⟩

/-- C5: a response whose declared content type contains neither `pdf` nor
`octet-stream` is rejected and nothing is saved, whatever the status code;
and a save happens only after the status check and the content-type check
both passed, with the written bytes equal to the response body.  This
holds for the TCI loop body and for `AldrichClient.download_sds` (which
accepts only the `pdf` marker). -/
theorem C5_content_type :
    (∀ (meta : SDSMetadata) (fetch : PyStr → TciFetchResult)
        (requested filename : PyStr) (contentBytes : List Nat) (r : TciResponse),
        fetch (pyStrip requested) = TciFetchResult.ok r →
        pyIn (S "pdf") (pyLower r.content_type) = false →
        pyIn (S "octet-stream") (pyLower r.content_type) = false →
        tci_process_language meta fetch requested
          ≠ TciLangOutcome.saved filename contentBytes) ∧
    (∀ (meta : SDSMetadata) (fetch : PyStr → TciFetchResult)
        (requested filename : PyStr) (contentBytes : List Nat),
        tci_process_language meta fetch requested
          = TciLangOutcome.saved filename contentBytes →
        ∃ r, fetch (pyStrip requested) = TciFetchResult.ok r ∧
          r.status_code = 200 ∧
          (pyIn (S "pdf") (pyLower r.content_type) = true ∨
            pyIn (S "octet-stream") (pyLower r.content_type) = true) ∧
          contentBytes = r.content) ∧
    (∀ (sds_url output_path product_url language : PyStr) (r : AldrichResponse),
        pyIn (S "pdf") (pyLower r.content_type) = false →
        aldrich_download_sds (AldrichFetchResult.ok r) sds_url output_path
          product_url language = none) ∧
    (∀ (fetchResult : AldrichFetchResult)
        (sds_url output_path product_url language : PyStr)
        (contentBytes : List Nat) (record : DownloadRecord),
        aldrich_download_sds fetchResult sds_url output_path product_url language
          = some (contentBytes, record) →
        ∃ r, fetchResult = AldrichFetchResult.ok r ∧ r.status_code = 200 ∧
          pyIn (S "pdf") (pyLower r.content_type) = true ∧
          contentBytes = r.content) := by
  refine ⟨?_, ?_, ?_, ?_⟩
  · intro meta fetch requested filename contentBytes r hfr hpdf hoct hsaved
    obtain ⟨r', hf', _, hor, _, _⟩ :=
      tci_saved_inv meta fetch requested filename contentBytes hsaved
    rw [hfr] at hf'
    injection hf' with hr
    subst hr
    rcases hor with hcontra | hcontra
    · rw [hpdf] at hcontra; cases hcontra
    · rw [hoct] at hcontra; cases hcontra
  · intro meta fetch requested filename contentBytes hsaved
    obtain ⟨r, hf, h200, hor, hcb, _⟩ :=
      tci_saved_inv meta fetch requested filename contentBytes hsaved
    exact ⟨r, hf, h200, hor, hcb⟩
  · intro sds_url output_path product_url language r hpdf
    unfold aldrich_download_sds
    dsimp only
    by_cases h3 : r.status_code ≠ 200
    · rw [if_pos h3]
    · rw [if_neg h3, if_pos (by rw [hpdf]; rfl)]
  · intro fetchResult sds_url output_path product_url language contentBytes record hsome
    exact aldrich_some_inv fetchResult sds_url output_path product_url language
      contentBytes record hsome

theorem C5_witness :
    aldrich_download_sds
        (AldrichFetchResult.ok
          { status_code := 200, content_type := S "text/html", content := [60] })
        (S "u") (S "p") (S "purl") (S "ko") = none :=
  C5_content_type.2.2.1 (S "u") (S "p") (S "purl") (S "ko")
    { status_code := 200, content_type := S "text/html", content := [60] }
    (by decide)

/-- C6: requesting `["ko", "en"]` (normalized by `main` to `["en", "ko"]`)
for a TCI product whose page lists only `ko` as available yields exactly
one DownloadRecord, for `ko`, and exactly one skip, for `en`, when the
`ko` POST returns a 200 PDF. -/
theorem C6_partial_availability :
    (tci_download_sds_documents c6_meta (S "sds-url") (S "out")
        (tci_requested_languages [S "ko", S "en"] c6_meta) c6_fetch).2.length = 1 ∧
    (tci_download_sds_documents c6_meta (S "sds-url") (S "out")
        (tci_requested_languages [S "ko", S "en"] c6_meta) c6_fetch).2.map
        DownloadRecord.languages = [[S "ko"]] ∧
    (tci_download_sds_documents c6_meta (S "sds-url") (S "out")
        (tci_requested_languages [S "ko", S "en"] c6_meta) c6_fetch).1
      = [(S "en", TciLangOutcome.skippedUnavailable),
         (S "ko", TciLangOutcome.saved (S "L0483_ko.pdf") [37, 80, 68, 70])] := by
  refine ⟨?_, ?_, ?_⟩ <;> decide

/-- C7 (amended): the attempted language sequence is not the caller's
order but `normalize_languages` of the caller's list (when non-empty): the
case-folded, deduplicated set of the non-blank requested codes in sorted
order; the attempts themselves are made in that list's order. -/
theorem C7_order (cli_languages : List PyStr)
    (default_language country brand product_number product_url output_root : PyStr)
    (fetch : PyStr → AldrichFetchResult)
    (h : ¬(normalize_languages cli_languages).isEmpty = true) :
    (aldrich_main_loop country brand product_number product_url output_root
        (aldrich_requested_languages cli_languages default_language) fetch).1
      = normalize_languages cli_languages ∧
    (normalize_languages cli_languages).Sorted (· ≤ ·) ∧
    (normalize_languages cli_languages).Nodup ∧
    (∀ x, x ∈ normalize_languages cli_languages ↔
      ∃ y ∈ cli_languages, ¬(pyStrip y).isEmpty ∧ x = pyLower (pyStrip y)) := by
  refine ⟨?_, normalize_languages_sorted _, normalize_languages_nodup _,
    fun x => mem_normalize_languages⟩
  rw [aldrich_main_loop_fst]
  unfold aldrich_requested_languages
  rw [if_neg h]

theorem C7_witness :
    (aldrich_main_loop (S "KR") (S "sigald") (S "34873") (S "purl") (S "out")
        (aldrich_requested_languages [S "ko", S "en"] (S "ko"))
        (fun _ => AldrichFetchResult.error)).1
      = normalize_languages [S "ko", S "en"] :=
  (C7_order [S "ko", S "en"] (S "ko") (S "KR") (S "sigald") (S "34873")
    (S "purl") (S "out") (fun _ => AldrichFetchResult.error) (by decide)).1

/-- C7 counterexample: requesting `["ko", "en"]` makes the Aldrich runner
attempt `["en", "ko"]` — the sorted normalized order, not the caller's
order. -/
theorem C7_counterexample :
    aldrich_requested_languages [S "ko", S "en"] (S "ko") = [S "en", S "ko"] ∧
    aldrich_requested_languages [S "ko", S "en"] (S "ko") ≠ [S "ko", S "en"] := by
  constructor
  · decide
  · decide

/-- C8 (amended): records are created only on a validated successful fetch
and only appended — the TCI run's records are exactly the saved outcomes
with their creation-time fields — but in the Playwright-MCP variant the
`languages` field of each record is reassigned once after creation
(replacing the Accept-Language-derived placeholder with the loop's
language code); all other fields keep their creation values. -/
theorem C8_record_lifecycle (meta : SDSMetadata) (sds_url output_dir : PyStr)
    (languages : List PyStr) (fetch : PyStr → TciFetchResult)
    (country default_language brand product_number product_url output_root : PyStr)
    (mcp_languages : List PyStr) (helper : PyStr → McpHelperResult) :
    ((tci_download_sds_documents meta sds_url output_dir languages fetch).2
      = (tci_download_sds_documents meta sds_url output_dir languages fetch).1.filterMap
          (fun p => match p.2 with
            | .saved filename _ =>
                some (tci_record_for meta sds_url output_dir (pyStrip p.1) filename)
            | _ => none)) ∧
    (mcp_main_loop country default_language brand product_number product_url
        output_root mcp_languages helper
      = mcp_languages.filterMap (fun language =>
          (mcp_download_with_playwright (helper language)
              (S "https://www.sigmaaldrich.com/" ++ country ++ S "/" ++ language
                ++ S "/sds/" ++ brand ++ S "/" ++ product_number)
              (output_root ++ S "/" ++ aldrich_filename product_number country language)
              product_url (mcp_accept_language default_language country)).map
            (fun record => { record with languages := [pyLower language] }))) :=
  ⟨tci_records_eq meta sds_url output_dir languages fetch,
   mcp_main_loop_eq country default_language brand product_number product_url
     output_root mcp_languages helper⟩

/-- C8 counterexample: in the MCP variant the record created by
`download_with_playwright` carries `languages = ["kr"]` (derived from the
Accept-Language header — actually the lowered country code), but the
record that reaches the output list carries `["en"]`: its `languages`
field was reassigned after creation. -/
theorem C8_counterexample :
    ((mcp_download_with_playwright (c8_helper (S "en"))
        (S "https://www.sigmaaldrich.com/KR/en/sds/sigald/34873")
        (S "out/34873_KR_EN.pdf") (S "purl")
        (mcp_accept_language (S "ko") (S "KR"))).map DownloadRecord.languages)
      = some [S "kr"] ∧
    (mcp_main_loop (S "KR") (S "ko") (S "sigald") (S "34873") (S "purl")
        (S "out") [S "en"] c8_helper).map DownloadRecord.languages = [[S "en"]] ∧
    ([S "kr"] : List PyStr) ≠ [S "en"] := by
  refine ⟨?_, ?_, ?_⟩ <;> decide

/-- C9: `normalize_languages` is idempotent, order-independent
(permutations of the input give equal output), and each output entry is
whitespace-stripped and case-folded, with no duplicates. -/
theorem C9_normalize_languages (l l' : List PyStr) (h : l.Perm l') :
    normalize_languages (normalize_languages l) = normalize_languages l ∧
    normalize_languages l = normalize_languages l' ∧
    (∀ x ∈ normalize_languages l, pyStrip x = x ∧ pyLower x = x) ∧
    (normalize_languages l).Nodup :=
  ⟨normalize_languages_idem l, normalize_languages_perm_eq l l' h,
   fun _ hx => normalize_languages_mem_normal hx, normalize_languages_nodup l⟩

theorem C9_witness :
    normalize_languages (normalize_languages [S " KO", S "en", S "ko "])
      = normalize_languages [S " KO", S "en", S "ko "] ∧
    normalize_languages [S " KO", S "en", S "ko "]
      = normalize_languages [S "en", S "ko ", S " KO"] :=
  ⟨(C9_normalize_languages [S " KO", S "en", S "ko "] [S "en", S "ko ", S " KO"]
      (by decide)).1,
   (C9_normalize_languages [S " KO", S "en", S "ko "] [S "en", S "ko ", S " KO"]
      (by decide)).2.1⟩

/-- C10: when the extracted metadata lists zero available languages the
availability check is bypassed: no requested language is ever skipped as
unavailable, and a language is skipped as blank exactly when its stripped
code is empty — every other requested language reaches the POST. -/
theorem C10_empty_availability (meta : SDSMetadata) (sds_url output_dir : PyStr)
    (languages : List PyStr) (fetch : PyStr → TciFetchResult)
    (h : tci_available_codes meta = []) :
    ∀ p ∈ (tci_download_sds_documents meta sds_url output_dir languages fetch).1,
      (p.2 = TciLangOutcome.skippedBlank ↔ (pyStrip p.1).isEmpty = true) ∧
      p.2 ≠ TciLangOutcome.skippedUnavailable := by
  induction languages with
  | nil => intro p hp; cases hp
  | cons requested rest ih =>
      intro p hp
      rw [tci_download_outcomes_cons] at hp
      rcases List.mem_cons.mp hp with hp1 | hp2
      · subst hp1
        exact tci_process_language_no_avail meta fetch requested h
      · exact ih p hp2

theorem C10_witness :
    ((S " ", TciLangOutcome.skippedBlank).2 = TciLangOutcome.skippedBlank
      ↔ (pyStrip (S " ", TciLangOutcome.skippedBlank).1).isEmpty = true) ∧
    (S " ", TciLangOutcome.skippedBlank).2 ≠ TciLangOutcome.skippedUnavailable :=
  C10_empty_availability c10_meta (S "u") (S "o") [S " ", S "ko"]
    (fun _ => TciFetchResult.error) (by decide)
    (S " ", TciLangOutcome.skippedBlank) (by decide)
